import Mathlib

/-!
Verification of the StripAlerts ESP32 firmware core against its
natural-language specification.  The definitions below are a shallow
embedding of the MicroPython sources under `src/modules/stripalerts/`
(`constants.py`, `events.py`, `wifi.py`, `app.py`, `led.py`, `ble.py`);
each definition's doc comment names the Python symbol it translates.
External collaborators (the MicroPython runtime's `collections.deque`,
Python call/attribute semantics, UTF-8 decoding, handler coroutines)
are modelled explicitly where a claim depends on them.
-/

namespace StripAlerts

/-! ## constants.py -/

/-- `RGB` — a colour triple (`constants.py`). -/
abbrev RGB := Nat × Nat × Nat

/-- `TRIGGER_TOKEN_AMOUNT = const(35)` (`constants.py`). -/
def TRIGGER_TOKEN_AMOUNT : Int := 35

/-- `MAX_EVENT_QUEUE_SIZE = const(50)` (`constants.py`). -/
def MAX_EVENT_QUEUE_SIZE : Nat := 50

/-- `WIFI_CONNECT_TIMEOUT = const(10)` seconds (`constants.py`). -/
def WIFI_CONNECT_TIMEOUT : Nat := 10

/-- `BLE_MAX_NETWORKS_LIST = const(5)` (`constants.py`). -/
def BLE_MAX_NETWORKS_LIST : Nat := 5

/-- `TIP_PULSE_DURATION = 2.0` seconds (`constants.py`). -/
def TIP_PULSE_DURATION : ℚ := 2

/-- `COLOR_HOLD_DURATION = const(600)` seconds (`constants.py`). -/
def COLOR_HOLD_DURATION : ℚ := 600

/-- `COLOR_MAP` (`constants.py`): tip-message colour names. -/
def COLOR_MAP : List (String × RGB) :=
  [("red", (255, 0, 0)),
   ("orange", (255, 165, 0)),
   ("yellow", (255, 255, 0)),
   ("green", (0, 255, 0)),
   ("blue", (0, 0, 255)),
   ("indigo", (75, 0, 130)),
   ("violet", (238, 130, 238))]

/-- `_FLAG_START = const(0x01)` (`ble.py`): chunked-write start flag. -/
def FLAG_START : Nat := 0x01

/-- `_FLAG_APPEND = const(0x02)` (`ble.py`): chunked-write append flag. -/
def FLAG_APPEND : Nat := 0x02

/-- Modelled from the spec: `BLE_NET_FLAG_START` is imported by `ble.py`
from `constants.py` but is not defined anywhere under the sources;
spec §6 fixes the network-list start frame as `[0x01, count_hi, count_lo]`. -/
def BLE_NET_FLAG_START : Nat := 0x01

/-- Modelled from the spec: `BLE_NET_FLAG_CHUNK` is imported by `ble.py`
from `constants.py` but is not defined anywhere under the sources;
spec §6 fixes the network-list chunk frame as `[0x02, idx_hi, idx_lo, ...]`. -/
def BLE_NET_FLAG_CHUNK : Nat := 0x02

/-! ## Python collaborator model -/

/-- Python exception classes that the embedded code can raise or catch. -/
inductive PyErr
  | attributeError
  | typeError
  | valueError
  | cancelledError
  | otherError
deriving DecidableEq, Repr

/-! ## events.py — `EventManager` -/

/-- A handler is identified abstractly; its behaviour is an oracle
passed to `processQueue` (the real handlers are arbitrary coroutines). -/
abbrev HandlerId := Nat

/-- Append on MicroPython's bounded `collections.deque((), maxlen)`
constructed without the overflow-check flag: when the deque is full an
`append` silently discards the item at the opposite (oldest) end, so the
new item always enters and the oldest leaves (`py/objdeque.c`). -/
def dequeAppend {α : Type} (maxlen : Nat) (q : List α) (x : α) : List α :=
  if q.length < maxlen then q ++ [x] else q.tail ++ [x]

/-- `EventManager` state (`events.py`): a topic→handlers registry kept in
registration order, and the bounded event queue. -/
structure EventManager (α : Type) where
  handlers : List (String × HandlerId)
  queue : List (String × α)

/-- `EventManager.on` (`events.py`): append the handler for the topic. -/
def EventManager.on {α} (m : EventManager α) (t : String) (h : HandlerId) :
    EventManager α :=
  { m with handlers := m.handlers ++ [(t, h)] }

/-- `EventManager.emit` (`events.py`): `self._queue.append((event_type, data))`
on the bounded deque; a plain synchronous call, it never waits. -/
def EventManager.emit {α} (m : EventManager α) (t : String) (d : α) :
    EventManager α :=
  { m with queue := dequeAppend MAX_EVENT_QUEUE_SIZE m.queue (t, d) }

/-- The handler list `self._handlers[event_type]` in registration order. -/
def handlersFor {α} (m : EventManager α) (t : String) : List HandlerId :=
  (m.handlers.filter (fun p => p.1 = t)).map (fun p => p.2)

/-- Outcome of awaiting one handler coroutine. -/
inductive HRes
  | ok
  | err
  | cancelled
deriving DecidableEq, Repr

/-- One event's handler loop (`events.py`, `process`): each handler is
awaited in turn; a `CancelledError` is re-raised (aborting the loop),
any other exception is logged and the loop continues.  Returns the
invocation trace and whether a cancellation escaped. -/
def runHandlersOn {α} (run : HandlerId → α → HRes) (d : α) :
    List HandlerId → List (HandlerId × HRes) × Bool
  | [] => ([], false)
  | h :: rest =>
    match run h d with
    | HRes.cancelled => ([(h, HRes.cancelled)], true)
    | r =>
      let (tr, c) := runHandlersOn run d rest
      ((h, r) :: tr, c)

/-- `EventManager.process` (`events.py`): drain the queue front-to-back
(`popleft`), running every registered handler for each event's topic;
a cancellation aborts the drain, handler errors do not. -/
def processQueue {α} (run : HandlerId → α → HRes)
    (handlers : List (String × HandlerId)) :
    List (String × α) → List (String × HandlerId × HRes) × Bool
  | [] => ([], false)
  | (t, d) :: rest =>
    let hs := handlersFor (α := α) ⟨handlers, []⟩ t
    let (tr, c) := runHandlersOn run d hs
    let tagged := tr.map (fun p => (t, p.1, p.2))
    if c then (tagged, true)
    else
      let (tr2, c2) := processQueue run handlers rest
      (tagged ++ tr2, c2)

/-! ## led.py / app.py — patterns and the tip-effect path -/

/-- The pattern generators of `led.py`, identified by constructor and the
arguments they were built with (`pulse_pattern`, `solid_pattern`,
`rainbow_pattern`, `blink_pattern`). -/
inductive Pattern
  | pulse (color : RGB) (duration : ℚ)
  | solid (color : RGB)
  | rainbow (step : ℚ) (delay : ℚ) (startHue : ℚ)
  | blink (color : RGB)
deriving DecidableEq, Repr

/-- The attribute names assigned on a `LEDController` instance
(`led.py`: `__init__` sets `num_pixels`, `np`, `_pattern_gen`, `_running`,
`_task`, `_saved_rainbow_hue`); Python attribute access on any other name
raises `AttributeError`. -/
def ledControllerAttrs : List String :=
  ["num_pixels", "np", "_pattern_gen", "_running", "_task",
   "_saved_rainbow_hue"]

/-- The mutable `LEDController` state the tip-effect path touches:
`_saved_rainbow_hue` and the active `_pattern_gen`. -/
structure LedState where
  savedRainbowHue : ℚ
  pattern : Option Pattern
deriving DecidableEq, Repr

/-- Python attribute access on the controller for a hue-valued name.
`_saved_rainbow_hue` is the only numeric attribute; the remaining attribute
names hold non-numeric objects (modelled as 0, never read by the embedded
code); a name outside `ledControllerAttrs` raises `AttributeError`. -/
def LedState.getHueAttr (led : LedState) (name : String) : Except PyErr ℚ :=
  if name ∈ ledControllerAttrs then
    if name = "_saved_rainbow_hue" then Except.ok led.savedRainbowHue
    else Except.ok 0
  else Except.error PyErr.attributeError

/-- The application state touched by `_process_tip_effect` (`app.py`):
`self._current_hold_color` and the LED controller. -/
structure AppState where
  currentHoldColor : Option RGB
  led : LedState
deriving DecidableEq, Repr

/-- `LEDController.set_pattern` (`led.py`): replace `_pattern_gen`. -/
def AppState.setPat (st : AppState) (p : Pattern) : AppState :=
  { st with led := { st.led with pattern := some p } }

/-- Observable actions of the tip-effect coroutine, in program order. -/
inductive EffAct
  | setPattern (p : Pattern)
  | sleep (d : ℚ)
  | logInfo
  | logError
deriving DecidableEq, Repr

/-- The two `await asyncio.sleep` suspension points of
`_process_tip_effect` at which a cancellation can be delivered. -/
inductive CancelPoint
  | duringPulseSleep
  | duringHoldSleep
deriving DecidableEq, Repr

/-- How the coroutine finishes: a normal return, or an exception escaping. -/
inductive TaskOutcome
  | returned
  | raised (e : PyErr)
deriving DecidableEq, Repr

/-- Result of one run of the tip-effect coroutine. -/
structure EffectResult where
  state : AppState
  trace : List EffAct
  outcome : TaskOutcome
deriving DecidableEq, Repr

/-- `app.py` builds the resume-rainbow pattern as
`rainbow_pattern(self.led, step=…, delay=…, start_hue=self.led.rainbow_hue)`
(lines 125–132 and 139–146); evaluating the argument `self.led.rainbow_hue`
is an attribute access on the controller, performed before the generator is
constructed. -/
def mkResumeRainbow (led : LedState) (rs rd : ℚ) : Except PyErr Pattern :=
  match led.getHueAttr "rainbow_hue" with
  | Except.error e => Except.error e
  | Except.ok h => Except.ok (Pattern.rainbow rs rd h)

/-- The "Restore State" tail of `_process_tip_effect` (`app.py` 120–132):
if a hold colour is nominally active, re-assert it solid; otherwise build
the resume-rainbow pattern — an exception there is caught by the function's
`except Exception` clause and logged, leaving the pattern untouched. -/
def restorePattern (rs rd : ℚ) (st : AppState) (trace : List EffAct) :
    EffectResult :=
  match st.currentHoldColor with
  | some c =>
    ⟨st.setPat (Pattern.solid c),
     trace ++ [EffAct.setPattern (Pattern.solid c)], TaskOutcome.returned⟩
  | none =>
    match mkResumeRainbow st.led rs rd with
    | Except.ok p =>
      ⟨st.setPat p, trace ++ [EffAct.setPattern p], TaskOutcome.returned⟩
    | Except.error _ =>
      ⟨st, trace ++ [EffAct.logError], TaskOutcome.returned⟩

/-- The `except asyncio.CancelledError` handler of `_process_tip_effect`
(`app.py` 134–146): clear `_current_hold_color`, then re-assert the rainbow
pattern; an exception raised inside this handler (the attribute access)
escapes the coroutine. -/
def tipCancelHandler (rs rd : ℚ) (st : AppState) (trace : List EffAct) :
    EffectResult :=
  let st1 := { st with currentHoldColor := none }
  match mkResumeRainbow st1.led rs rd with
  | Except.ok p =>
    ⟨st1.setPat p, trace ++ [EffAct.setPattern p], TaskOutcome.returned⟩
  | Except.error e => ⟨st1, trace, TaskOutcome.raised e⟩

/-- `App._process_tip_effect` (`app.py` 100–148), with `rs`/`rd` the
`rainbow_step`/`rainbow_delay` settings and `cancel` the suspension point
(if any) at which the task is cancelled: play the green acknowledgement
pulse, optionally enter the colour hold, then restore state. -/
def processTipEffect (rs rd : ℚ) (holdColor : Option RGB) (st : AppState)
    (cancel : Option CancelPoint) : EffectResult :=
  let p0 := Pattern.pulse (0, 255, 0) TIP_PULSE_DURATION
  let st1 := st.setPat p0
  let tr1 := [EffAct.setPattern p0,
              EffAct.sleep (TIP_PULSE_DURATION + 1/10)]
  if cancel = some CancelPoint.duringPulseSleep then
    tipCancelHandler rs rd st1 tr1
  else
    match holdColor with
    | some c =>
      let st2 := { st1.setPat (Pattern.solid c) with currentHoldColor := some c }
      let tr2 := tr1 ++ [EffAct.logInfo, EffAct.setPattern (Pattern.solid c),
                         EffAct.sleep COLOR_HOLD_DURATION]
      if cancel = some CancelPoint.duringHoldSleep then
        tipCancelHandler rs rd st2 tr2
      else
        restorePattern rs rd { st2 with currentHoldColor := none }
          (tr2 ++ [EffAct.logInfo])
    | none => restorePattern rs rd st1 tr1

/-! ## app.py — `_handle_tip` and `_parse_color_trigger` -/

/-- The dynamic value found in the tip payload's `tokens` field. -/
inductive PyVal
  | pyInt (n : Int)
  | pyStr (s : String)
  | pyNone
deriving DecidableEq, Repr

/-- Python `int(x)` as applied by `_handle_tip`: an int passes through, a
string parses as a decimal integer or raises `ValueError`, a non-numeric
object raises `TypeError`. -/
def pyIntConv : PyVal → Except PyErr Int
  | PyVal.pyInt n => Except.ok n
  | PyVal.pyStr s =>
    match s.toInt? with
    | some n => Except.ok n
    | none => Except.error PyErr.valueError
  | PyVal.pyNone => Except.error PyErr.typeError

/-- Whether `pre` starts the character list `l`. -/
def startsWithChars : List Char → List Char → Bool
  | [], _ => true
  | _ :: _, [] => false
  | a :: as, b :: bs => a = b && startsWithChars as bs

/-- Whether `sub` occurs contiguously in `msg`. -/
def hasSubChars (sub : List Char) : List Char → Bool
  | [] => startsWithChars sub []
  | c :: rest => startsWithChars sub (c :: rest) || hasSubChars sub rest

/-- Python's `in` on strings: substring test. -/
def strContains (msg sub : String) : Bool :=
  hasSubChars sub.data msg.data

/-- `App._parse_color_trigger` (`app.py` 92–98): a colour hold is triggered
iff the token amount equals `TRIGGER_TOKEN_AMOUNT` and a `COLOR_MAP` name
occurs in the message (already lowercased by the caller); the map is
iterated in the listing order above. -/
def parseColorTrigger (tokens : Int) (message : String) : Option RGB :=
  if tokens = TRIGGER_TOKEN_AMOUNT then
    (COLOR_MAP.find? (fun p => strContains message p.1)).map (fun p => p.2)
  else none

/-- A tip payload (`object.tip` of a decoded API event). -/
structure TipData where
  tokens : PyVal
  message : String

/-- Observable outcome of `App._handle_tip` (`app.py` 68–90). -/
structure TipHandleResult where
  tokens : Int
  loggedInvalidTokens : Bool
  launchedHold : Option RGB
deriving DecidableEq, Repr

/-- `App._handle_tip` (`app.py` 68–90): convert the token field — logging
and substituting 0 on `ValueError`/`TypeError` —, lowercase the message,
compute the colour trigger, then (after cancelling and awaiting any previous
effect task) launch `_process_tip_effect(found_color)`.  `launchedHold` is
the argument the new effect task is created with. -/
def handleTip (tip : TipData) : TipHandleResult :=
  let conv := pyIntConv tip.tokens
  let tokens := match conv with | Except.ok n => n | Except.error _ => 0
  let logged := match conv with | Except.ok _ => false | Except.error _ => true
  let message := tip.message.toLower
  ⟨tokens, logged, parseColorTrigger tokens message⟩

/-- `rainbow_hue` is not among the attributes `LEDController` defines. -/
theorem rainbow_hue_not_attr : "rainbow_hue" ∉ ledControllerAttrs := by
  decide

/-- Building the resume-rainbow pattern always raises `AttributeError`:
`app.py` reads `self.led.rainbow_hue`, an attribute the controller does not
have (its saved position lives in `_saved_rainbow_hue`). -/
theorem mkResumeRainbow_err (led : LedState) (rs rd : ℚ) :
    mkResumeRainbow led rs rd = Except.error PyErr.attributeError := by
  simp [mkResumeRainbow, LedState.getHueAttr, rainbow_hue_not_attr]

/-- C1 (code bug): for an ordinary tip (no colour trigger, no nominally
active hold) the effect task plays the acknowledgement pulse, but the
"restore rainbow" step raises `AttributeError` (`self.led.rainbow_hue`
does not exist), which the `except Exception` clause logs and swallows:
no rainbow pattern is ever re-activated — the active pattern stays the
exhausted pulse — contradicting the claim's restore clause. -/
theorem C1_rainbow_restore_bug :
    (processTipEffect 1 (1/20) none ⟨none, ⟨120, none⟩⟩ none).trace =
      [EffAct.setPattern (Pattern.pulse (0, 255, 0) TIP_PULSE_DURATION),
       EffAct.sleep (TIP_PULSE_DURATION + 1/10),
       EffAct.logError] ∧
    (∀ rs rd h, EffAct.setPattern (Pattern.rainbow rs rd h) ∉
      (processTipEffect 1 (1/20) none ⟨none, ⟨120, none⟩⟩ none).trace) ∧
    (processTipEffect 1 (1/20) none
        ⟨none, ⟨120, none⟩⟩ none).state.led.pattern =
      some (Pattern.pulse (0, 255, 0) TIP_PULSE_DURATION) := by
  refine ⟨rfl, ?_, rfl⟩
  intro rs rd h
  simp [processTipEffect, restorePattern, mkResumeRainbow_err,
    AppState.setPat, TIP_PULSE_DURATION]

/-- C6 (code bug): a tip-effect task cancelled mid-pulse does clear the
hold-colour marker, but the cancellation handler then raises
`AttributeError` (`self.led.rainbow_hue` does not exist) before
`set_pattern` runs, so the rainbow pattern is NOT re-asserted and the
exception escapes the coroutine — contradicting the claim's cleanup
clause. -/
theorem C6_cancel_cleanup_bug :
    (processTipEffect 1 (1/20) none ⟨some (0, 0, 255), ⟨120, none⟩⟩
        (some CancelPoint.duringPulseSleep)).state.currentHoldColor = none ∧
    (processTipEffect 1 (1/20) none ⟨some (0, 0, 255), ⟨120, none⟩⟩
        (some CancelPoint.duringPulseSleep)).outcome =
      TaskOutcome.raised PyErr.attributeError ∧
    (∀ rs rd h, EffAct.setPattern (Pattern.rainbow rs rd h) ∉
      (processTipEffect 1 (1/20) none ⟨some (0, 0, 255), ⟨120, none⟩⟩
        (some CancelPoint.duringPulseSleep)).trace) := by
  refine ⟨rfl, rfl, ?_⟩
  intro rs rd h
  simp [processTipEffect, tipCancelHandler, mkResumeRainbow_err,
    AppState.setPat, TIP_PULSE_DURATION]

/-- C10: when the tip payload's `tokens` field cannot be converted to an
integer, `_handle_tip` swallows the error: it logs, proceeds with
`tokens = 0`, never triggers a colour hold (0 ≠ 35), and still launches the
effect task, whose first action is the green acknowledgement pulse. -/
theorem C10_invalid_tokens (tip : TipData) (e : PyErr)
    (hconv : pyIntConv tip.tokens = Except.error e) :
    (handleTip tip).tokens = 0 ∧
    (handleTip tip).loggedInvalidTokens = true ∧
    (handleTip tip).launchedHold = none ∧
    ∀ (rs rd : ℚ) (st : AppState),
      (processTipEffect rs rd (handleTip tip).launchedHold st none).trace.head?
        = some (EffAct.setPattern
            (Pattern.pulse (0, 255, 0) TIP_PULSE_DURATION)) := by
  have h1 : handleTip tip = ⟨0, true, none⟩ := by
    simp [handleTip, hconv, parseColorTrigger, TRIGGER_TOKEN_AMOUNT]
  refine ⟨by simp [h1], by simp [h1], by simp [h1], ?_⟩
  intro rs rd st
  rw [h1]
  cases hc : st.currentHoldColor <;>
    simp [processTipEffect, restorePattern, hc, mkResumeRainbow_err,
      AppState.setPat]

/-- C10 witness: a tip whose `tokens` field is `None` (`int(None)` raises
`TypeError`). -/
theorem C10_invalid_tokens_witness :
    (handleTip ⟨PyVal.pyNone, "big blue"⟩).launchedHold = none :=
  (C10_invalid_tokens ⟨PyVal.pyNone, "big blue"⟩ PyErr.typeError rfl).2.2.1

/-! ## wifi.py — `WiFiManager.connect` and app.py — `setup` -/

/-- `_CONNECT_CHECK_INTERVAL_MS = const(100)` (`wifi.py`). -/
def CONNECT_CHECK_INTERVAL_MS : Nat := 100

/-- The parameter names of `WiFiManager.connect` as defined in `wifi.py`
(lines 59–61): `self, ssid, password, timeout` — and nothing else. -/
def connectParamNames : List String := ["self", "ssid", "password", "timeout"]

/-- Python call semantics: passing a keyword argument whose name is not a
declared parameter raises `TypeError` before the function body runs. -/
def callWithKeywords (declared kwargs : List String) : Except PyErr Unit :=
  if kwargs.all (fun k => declared.contains k) then Except.ok ()
  else Except.error PyErr.typeError

/-- Observable collaborator actions performed by `WiFiManager.connect`. -/
inductive WifiAct
  | enableSta
  | checkConnected
  | configReconnects
  | connectRequest
  | sleepMs (n : Nat)
  | feedWatchdog
deriving DecidableEq, Repr

/-- The polling loop of `connect` (`wifi.py` 84–91): at poll `i` check
`isconnected()`; on success return `True`, otherwise sleep 100 ms; after
the given number of iterations give up. -/
def connectPollLoop (statusAtPoll : Nat → Bool) (i : Nat) :
    Nat → List WifiAct × Bool
  | 0 => ([], false)
  | n + 1 =>
    if statusAtPoll i then ([WifiAct.checkConnected], true)
    else
      let (tr, r) := connectPollLoop statusAtPoll (i + 1) n
      (WifiAct.checkConnected :: WifiAct.sleepMs CONNECT_CHECK_INTERVAL_MS
        :: tr, r)

/-- `WiFiManager.connect` (`wifi.py` 59–95): enable station mode,
short-circuit success if already connected, otherwise configure reconnects,
issue the connect request and poll `isconnected()` every 100 ms for
`(timeout * 1000) // 100` iterations, returning the success boolean.
`alreadyConnected` and `statusAtPoll` model the radio collaborator. -/
def wifiConnect (alreadyConnected : Bool) (statusAtPoll : Nat → Bool)
    (timeout : Nat) : List WifiAct × Bool :=
  if alreadyConnected then ([WifiAct.enableSta, WifiAct.checkConnected], true)
  else
    let iterations := timeout * 1000 / CONNECT_CHECK_INTERVAL_MS
    let (tr, r) := connectPollLoop statusAtPoll 0 iterations
    (WifiAct.enableSta :: WifiAct.checkConnected :: WifiAct.configReconnects
      :: WifiAct.connectRequest :: tr, r)

/-- `App.mode` values (`app.py`). -/
inductive Mode
  | boot
  | normal
  | provisioning
deriving DecidableEq, Repr

/-- A scanned network entry (`wifi.py`, `scan`). -/
structure NetworkInfo where
  ssid : String
  rssi : Int
  auth : Nat
deriving DecidableEq, Repr

/-- Observable result of `App.setup` (`app.py` 207–229). -/
structure SetupResult where
  mode : Mode
  apiConstructed : Bool
  bleConstructed : Bool
  initialNetworks : List NetworkInfo
deriving DecidableEq, Repr

/-- `App._setup_provisioning_mode` (`app.py` 189–205): set the blink
pattern, perform one up-front scan — a scan failure is caught and yields an
empty cache — and construct the `BLEManager` with the scanned networks as
its cache. -/
def setupProvisioningMode (scanResult : Except PyErr (List NetworkInfo)) :
    SetupResult :=
  let nets := match scanResult with
    | Except.ok l => l
    | Except.error _ => []
  ⟨Mode.provisioning, false, true, nets⟩

/-- `App.setup` (`app.py` 207–229) with the collaborator outcomes as
parameters: `connectResult` is the outcome of awaiting `wifi.connect` on
the Normal-mode path (`_setup_normal_mode`, `app.py` 165–187 — neither it
nor `setup` wraps that await in any exception handler, so a raised failure
propagates), `scanResult` the outcome of the provisioning scan.  Python
truthiness of the config strings is non-emptiness. -/
def setup (ssid apiUrl : String) (connectResult : Except PyErr Bool)
    (scanResult : Except PyErr (List NetworkInfo)) :
    Except PyErr SetupResult :=
  if ssid ≠ "" ∧ apiUrl ≠ "" then
    match connectResult with
    | Except.error e => Except.error e
    | Except.ok true => Except.ok ⟨Mode.normal, true, false, []⟩
    | Except.ok false => Except.ok (setupProvisioningMode scanResult)
  else
    Except.ok (setupProvisioningMode scanResult)

/-- The watchdog is never fed inside the polling loop. -/
theorem feed_not_in_connectPollLoop (statusAtPoll : Nat → Bool)
    (i n : Nat) :
    WifiAct.feedWatchdog ∉ (connectPollLoop statusAtPoll i n).1 := by
  induction n generalizing i with
  | zero => simp [connectPollLoop]
  | succ n ih =>
    by_cases hs : statusAtPoll i <;>
      simp [connectPollLoop, hs, ih]

/-- C2 (code bug): `WiFiManager.connect` declares no `wdt` parameter, so
the application's call `self.wifi.connect(ssid, password, wdt=self.wdt)`
(`app.py` 177) raises `TypeError` instead of returning a boolean; and the
connect poll loop contains no watchdog feed at all, contradicting the
claim that the watchdog is fed on each poll and that the call never raises
to its caller. -/
theorem C2_connect_wdt_bug :
    callWithKeywords connectParamNames ["wdt"] =
      Except.error PyErr.typeError ∧
    "wdt" ∉ connectParamNames ∧
    ∀ (ac : Bool) (sp : Nat → Bool) (t : Nat),
      WifiAct.feedWatchdog ∉ (wifiConnect ac sp t).1 := by
  refine ⟨rfl, by decide, ?_⟩
  intro ac sp t
  cases ac with
  | true => simp [wifiConnect]
  | false =>
    simp only [wifiConnect, Bool.false_eq_true, if_false]
    have h := feed_not_in_connectPollLoop sp 0
      (t * 1000 / CONNECT_CHECK_INTERVAL_MS)
    simp_all

/-- C3 (counterexample): with SSID and API URL configured and the WiFi
connect attempt raising an exception, `setup` propagates the exception —
it does not fall back to Provisioning mode (there is no handler around the
Normal-mode path), refuting the "rather than propagating" clause. -/
theorem C3_counterexample :
    setup "MyWiFi" "http://api" (Except.error PyErr.otherError)
        (Except.ok []) = Except.error PyErr.otherError ∧
    ∀ r, setup "MyWiFi" "http://api" (Except.error PyErr.otherError)
        (Except.ok []) ≠ Except.ok r := by
  refine ⟨rfl, ?_⟩
  intro r
  simp [setup]

/-- C3 (amended): the mode becomes Normal iff SSID and API URL are both
non-empty and the connect attempt returns success; on missing
configuration or on connect returning failure, `setup` falls back to
Provisioning (constructing the BLE service with the result of one up-front
scan, an erroring scan yielding an empty cache); but a failure RAISED along
the Normal-mode path propagates out of `setup` unchanged. -/
theorem C3_setup_mode_selection (ssid apiUrl : String)
    (connectResult : Except PyErr Bool)
    (scanResult : Except PyErr (List NetworkInfo)) :
    (setup ssid apiUrl connectResult scanResult =
        Except.ok ⟨Mode.normal, true, false, []⟩ ↔
      (ssid ≠ "" ∧ apiUrl ≠ "" ∧ connectResult = Except.ok true)) ∧
    ((¬(ssid ≠ "" ∧ apiUrl ≠ "") ∨ connectResult = Except.ok false) →
      setup ssid apiUrl connectResult scanResult =
        Except.ok ⟨Mode.provisioning, false, true,
          match scanResult with
          | Except.ok l => l
          | Except.error _ => []⟩) ∧
    (∀ e, ssid ≠ "" → apiUrl ≠ "" → connectResult = Except.error e →
      setup ssid apiUrl connectResult scanResult = Except.error e) := by
  by_cases hcfg : ssid ≠ "" ∧ apiUrl ≠ ""
  · cases connectResult with
    | error e =>
      refine ⟨?_, ?_, ?_⟩
      · simp [setup, hcfg]
      · rintro (h | h)
        · exact absurd hcfg h
        · exact absurd h (by simp)
      · intro e' _ _ he
        injection he with h
        subst h
        simp [setup, hcfg]
    | ok b =>
      cases b with
      | true =>
        refine ⟨?_, ?_, ?_⟩
        · simp [setup, hcfg]
        · rintro (h | h)
          · exact absurd hcfg h
          · exact absurd h (by simp)
        · intro e' _ _ he
          exact absurd he (by simp)
      | false =>
        refine ⟨?_, ?_, ?_⟩
        · constructor
          · intro h
            simp [setup, hcfg, setupProvisioningMode] at h
          · rintro ⟨_, _, h⟩
            exact absurd h (by simp)
        · intro _
          simp [setup, hcfg, setupProvisioningMode]
        · intro e' _ _ he
          exact absurd he (by simp)
  · refine ⟨?_, ?_, ?_⟩
    · constructor
      · intro h
        simp [setup, hcfg, setupProvisioningMode] at h
      · rintro ⟨h1, h2, _⟩
        exact absurd ⟨h1, h2⟩ hcfg
    · intro _
      simp [setup, hcfg, setupProvisioningMode]
    · intro e' h1 h2 _
      exact absurd ⟨h1, h2⟩ hcfg

/-- C3 witness: configured credentials and a successful connect select
Normal mode. -/
theorem C3_setup_mode_selection_witness :
    setup "MyWiFi" "http://api" (Except.ok true) (Except.ok []) =
      Except.ok ⟨Mode.normal, true, false, []⟩ :=
  ((C3_setup_mode_selection "MyWiFi" "http://api" (Except.ok true)
      (Except.ok [])).1).mpr ⟨by decide, by decide, rfl⟩

/-! ## ble.py — chunked-write reassembly (`_monitor_write`) -/

/-- One BLE write's raw bytes. -/
abbrev WriteBytes := List Nat

/-- Processing one write in `_monitor_write` (`ble.py` 219–231): an empty
write is skipped; byte 0 is the flag — `START` replaces the buffer with the
remaining bytes, `APPEND` extends it, any other flag value leaves the
buffer unchanged (`continue`). -/
def stepBuffer (buf : WriteBytes) (value : WriteBytes) : WriteBytes :=
  match value with
  | [] => buf
  | flag :: data =>
    if flag = FLAG_START then data
    else if flag = FLAG_APPEND then buf ++ data
    else buf

/-- The reassembly buffer after a sequence of writes. -/
def runBuffer (buf : WriteBytes) (frames : List WriteBytes) : WriteBytes :=
  frames.foldl stepBuffer buf

/-- Whether a write is a `START` frame. -/
def isStartFrame (value : WriteBytes) : Bool :=
  match value with
  | flag :: _ => flag = FLAG_START
  | [] => false

/-- The bytes a write contributes to the buffer when it is an `APPEND`
frame (empty contribution for any other write). -/
def appendPayload (value : WriteBytes) : WriteBytes :=
  match value with
  | flag :: data => if flag = FLAG_APPEND then data else []
  | [] => []

/-- Whether a write signals the debounce worker (`ble.py` 219–234): only a
non-empty `START`/`APPEND` frame reaches `self._debounce_events[uuid].set()`;
skipped writes do not. -/
def signalsWorker (value : WriteBytes) : Bool :=
  match value with
  | [] => false
  | flag :: _ => flag = FLAG_START || flag = FLAG_APPEND

/-- `_apply_buffer_to_settings` (`ble.py` 98–107): an empty buffer is
skipped; a UTF-8 decode failure returns without touching config; otherwise
the decoded text is stored under the config key.  `decode` is the runtime's
UTF-8 decoder, `settings` the in-memory config as a key→value map. -/
def applyBufferToSettings (decode : WriteBytes → Option String)
    (buf : WriteBytes) (settings : String → String) (key : String) :
    String → String :=
  if buf = [] then settings
  else
    match decode buf with
    | none => settings
    | some v => fun k => if k = key then v else settings k

/-- Frames none of which is a `START` frame only append their `APPEND`
payloads to the buffer. -/
theorem runBuffer_no_start (frames : List WriteBytes)
    (h : ∀ f ∈ frames, isStartFrame f = false) (buf : WriteBytes) :
    runBuffer buf frames = buf ++ frames.flatMap appendPayload := by
  induction frames generalizing buf with
  | nil => simp [runBuffer]
  | cons f rest ih =>
    have hf : isStartFrame f = false := h f (by simp)
    have hrest : ∀ g ∈ rest, isStartFrame g = false :=
      fun g hg => h g (by simp [hg])
    cases f with
    | nil =>
      simpa [runBuffer, stepBuffer, appendPayload, List.foldl_cons]
        using ih hrest buf
    | cons flag data =>
      have hns : ¬ flag = FLAG_START := by
        simpa [isStartFrame] using hf
      by_cases ha : flag = FLAG_APPEND
      · have := ih hrest (buf ++ data)
        simpa [runBuffer, stepBuffer, appendPayload, hns, ha,
          List.foldl_cons, List.append_assoc] using this
      · have := ih hrest buf
        simpa [runBuffer, stepBuffer, appendPayload, hns, ha,
          List.foldl_cons] using this

/-- C7: after any `pre`-history, a `START` frame with payload `s` followed
by frames none of which is a `START` frame leaves the buffer equal to `s`
followed by the `APPEND` payloads in frame order (other flags and empty
writes contributing nothing); and a UTF-8 decode failure of the
accumulated buffer leaves the config untouched (and the buffer is not an
output of the decode path at all). -/
theorem C7_chunk_reassembly (init : WriteBytes) (pre post : List WriteBytes)
    (s : WriteBytes) (hpost : ∀ f ∈ post, isStartFrame f = false) :
    runBuffer init (pre ++ (FLAG_START :: s) :: post) =
      s ++ post.flatMap appendPayload ∧
    ∀ (decode : WriteBytes → Option String) (buf : WriteBytes)
      (settings : String → String) (key : String),
      decode buf = none →
      applyBufferToSettings decode buf settings key = settings := by
  constructor
  · have h1 : runBuffer init (pre ++ (FLAG_START :: s) :: post) =
        runBuffer (stepBuffer (runBuffer init pre) (FLAG_START :: s)) post := by
      simp [runBuffer, List.foldl_append, List.foldl_cons]
    have h2 : stepBuffer (runBuffer init pre) (FLAG_START :: s) = s := by
      simp [stepBuffer]
    rw [h1, h2]
    simpa using runBuffer_no_start post hpost s
  · intro decode buf settings key hdec
    by_cases hb : buf = []
    · simp [applyBufferToSettings, hb]
    · simp [applyBufferToSettings, hb, hdec]

/-- C7 witness: a concrete frame sequence — stale history, then
`START "ab"`-style bytes, an `APPEND`, an unknown flag and an empty write —
reassembles to the `START` payload plus the `APPEND` payload. -/
theorem C7_chunk_reassembly_witness :
    runBuffer [9] ([[2, 5]] ++ (FLAG_START :: [10, 11]) :: [[2, 12], [7, 13], []])
      = [10, 11, 12] :=
  ((C7_chunk_reassembly [9] [[2, 5]] [[2, 12], [7, 13], []] [10, 11]
      (by decide)).1).trans (by decide)

/-! ## ble.py — debounced persistence (`_save_worker`)

The worker (`ble.py` 189–212) alternates between `await event.wait()` and a
quiet-period loop that sleeps 0.5 s and re-checks `event.is_set()`.  Time is
discretised into 0.5 s ticks (the only delay in the loop); during each tick
the write monitor may process one write (setting the event), and at each
tick boundary the worker observes whether the event was set. -/

/-- Worker control state: blocked in `await event.wait()` (`idle`) or
inside the quiet-period loop (`debouncing`). -/
inductive WState
  | idle
  | debouncing
deriving DecidableEq, Repr

/-- One debounce tick (`ble.py` 191–201): an idle worker signalled during
the tick wakes into the quiet-period loop; a debouncing worker signalled
during the tick clears the event and restarts the wait (`continue`); a
debouncing worker seeing a quiet tick breaks out and commits. -/
def wstep : WState → Bool → WState × Bool
  | WState.idle, sig => (if sig then WState.debouncing else WState.idle, false)
  | WState.debouncing, sig =>
    if sig then (WState.debouncing, false) else (WState.idle, true)

/-- One half-second slot of the characteristic's timeline: `some v` when
the write monitor processed the write `v` during the slot, `none` for
silence. -/
abbrev Tick := Option WriteBytes

/-- Whether the debounce event gets set during the tick. -/
def tickSignal : Tick → Bool
  | none => false
  | some fr => signalsWorker fr

/-- The reassembly buffer after the tick. -/
def tickBuffer (buf : WriteBytes) : Tick → WriteBytes
  | none => buf
  | some fr => stepBuffer buf fr

/-- The worker run over a timeline: per tick, the buffer snapshot committed
at that tick boundary (if any), plus the final worker state and buffer. -/
def debounceRun (st : WState) (buf : WriteBytes) :
    List Tick → List (Option WriteBytes) × WState × WriteBytes
  | [] => ([], st, buf)
  | tick :: rest =>
    let buf2 := tickBuffer buf tick
    let sc := wstep st (tickSignal tick)
    let r := debounceRun sc.1 buf2 rest
    ((if sc.2 then some buf2 else none) :: r.1, r.2)

/-- The commit step of `_save_worker` (`ble.py` 203–210): decode the buffer
and store the text under the config key; a decode failure is logged and
commits nothing. -/
def workerCommit (decode : WriteBytes → Option String) (key : String)
    (settings : String → String) (buf : WriteBytes) : String → String :=
  match decode buf with
  | none => settings
  | some v => fun k => if k = key then v else settings k

/-- The in-memory config after a sequence of (possible) commits. -/
def applyCommits (decode : WriteBytes → Option String) (key : String)
    (settings : String → String) (cs : List (Option WriteBytes)) :
    String → String :=
  cs.foldl (fun s c =>
    match c with
    | none => s
    | some buf => workerCommit decode key s buf) settings

/-- Number of maximal quiet runs in a signal trace (`prevSig` carries
whether the previous tick was signalled; a quiet tick opens a new run
exactly when the previous tick was not quiet). -/
def quietRunsAux (prevSig : Bool) : List Bool → Nat
  | [] => 0
  | s :: rest => (if prevSig && !s then 1 else 0) + quietRunsAux s rest

/-- Number of maximal quiet runs (quiet periods) in a signal trace. -/
def quietRuns (sigs : List Bool) : Nat := quietRunsAux true sigs

/-- Number of commits in a commit trace. -/
def countCommits : List (Option WriteBytes) → Nat
  | [] => 0
  | none :: cs => countCommits cs
  | some _ :: cs => countCommits cs + 1

/-- `wstep` commits exactly from the debouncing state on a quiet tick. -/
theorem wstep_commit (st : WState) (s : Bool) :
    (wstep st s).2 = true ↔ (st = WState.debouncing ∧ s = false) := by
  cases st <;> cases s <;> simp [wstep]

/-- `wstep` lands in the debouncing state exactly after a signalled tick. -/
theorem wstep_next (st : WState) (s : Bool) :
    (wstep st s).1 = WState.debouncing ↔ s = true := by
  cases st <;> cases s <;> simp [wstep]

/-- A commit at tick `i` implies: tick `i` is quiet; if `i = 0` the worker
was already debouncing; and the preceding tick was signalled. -/
theorem debounce_commit_guard (ticks : List Tick) (st : WState)
    (buf : WriteBytes) (i : Nat) (b : WriteBytes)
    (hc : (debounceRun st buf ticks).1.get? i = some (some b)) :
    (∃ t, ticks.get? i = some t ∧ tickSignal t = false) ∧
    (i = 0 → st = WState.debouncing) ∧
    (∀ j, i = j + 1 → ∃ t, ticks.get? j = some t ∧ tickSignal t = true) := by
  induction ticks generalizing st buf i with
  | nil => simp [debounceRun] at hc
  | cons tick rest ih =>
    cases i with
    | zero =>
      simp only [debounceRun, List.get?_cons_zero] at hc
      by_cases hcm : (wstep st (tickSignal tick)).2 = true
      · obtain ⟨hst, hsig⟩ := (wstep_commit st (tickSignal tick)).mp hcm
        exact ⟨⟨tick, rfl, hsig⟩, fun _ => hst, fun j hj => by omega⟩
      · rw [if_neg hcm] at hc
        exact absurd hc (by simp)
    | succ k =>
      simp only [debounceRun, List.get?_cons_succ] at hc
      obtain ⟨h1, h2, h3⟩ := ih _ _ k hc
      refine ⟨h1, by omega, ?_⟩
      intro j hj
      have hjk : j = k := by omega
      subst hjk
      cases j with
      | zero =>
        have hdeb : (wstep st (tickSignal tick)).1 = WState.debouncing :=
          h2 rfl
        exact ⟨tick, rfl, (wstep_next st (tickSignal tick)).mp hdeb⟩
      | succ j2 =>
        exact h3 j2 rfl

/-- Running over an all-signalled burst produces no commit, accumulates the
buffer, and (for a non-empty burst) leaves the worker debouncing. -/
theorem debounceRun_all_signal (burst : List Tick) (st : WState)
    (buf : WriteBytes) (h : ∀ t ∈ burst, tickSignal t = true) :
    (debounceRun st buf burst).1 = List.replicate burst.length none ∧
    (debounceRun st buf burst).2.2 = burst.foldl tickBuffer buf ∧
    (burst ≠ [] → (debounceRun st buf burst).2.1 = WState.debouncing) := by
  induction burst generalizing st buf with
  | nil => simp [debounceRun]
  | cons tick rest ih =>
    have hsig : tickSignal tick = true := h tick (by simp)
    have hrest : ∀ t ∈ rest, tickSignal t = true :=
      fun t ht => h t (by simp [ht])
    have hw : wstep st (tickSignal tick) = (WState.debouncing, false) := by
      cases st <;> simp [wstep, hsig]
    obtain ⟨ih1, ih2, ih3⟩ := ih WState.debouncing (tickBuffer buf tick) hrest
    refine ⟨?_, ?_, ?_⟩
    · simp [debounceRun, hw, ih1, List.replicate_succ]
    · simp [debounceRun, hw, ih2]
    · intro _
      cases hr : rest with
      | nil => simp [debounceRun, hw, hr]
      | cons a as =>
        have := ih3 (by simp [hr])
        simp only [debounceRun, hw]
        simpa [hr] using this

/-- An idle worker stays idle over silence, committing nothing. -/
theorem debounceRun_quiet_idle (m : Nat) (buf : WriteBytes) :
    debounceRun WState.idle buf (List.replicate m none) =
      (List.replicate m none, WState.idle, buf) := by
  induction m with
  | zero => simp [debounceRun]
  | succ k ih =>
    simp [List.replicate_succ, debounceRun, wstep, tickSignal, tickBuffer, ih]

/-- `debounceRun` over concatenated timelines splits at the junction. -/
theorem debounceRun_append (xs ys : List Tick) (st : WState)
    (buf : WriteBytes) :
    debounceRun st buf (xs ++ ys) =
      ((debounceRun st buf xs).1 ++
        (debounceRun (debounceRun st buf xs).2.1
          (debounceRun st buf xs).2.2 ys).1,
       (debounceRun (debounceRun st buf xs).2.1
          (debounceRun st buf xs).2.2 ys).2) := by
  induction xs generalizing st buf with
  | nil => simp [debounceRun]
  | cons tick rest ih =>
    simp [debounceRun, ih]

/-- Skipped ticks leave the config untouched. -/
theorem applyCommits_replicate_none (decode : WriteBytes → Option String)
    (key : String) (settings : String → String) (m : Nat) :
    applyCommits decode key settings (List.replicate m none) = settings := by
  induction m with
  | zero => rfl
  | succ k ih => simpa [applyCommits, List.replicate_succ] using ih

/-- The number of commits is bounded by the number of quiet runs,
provided the worker can only be debouncing right after a signalled tick. -/
theorem countCommits_le_quietRuns (ticks : List Tick) (st : WState)
    (prevSig : Bool) (buf : WriteBytes)
    (hinv : st = WState.debouncing → prevSig = true) :
    countCommits (debounceRun st buf ticks).1 ≤
      quietRunsAux prevSig (ticks.map tickSignal) := by
  induction ticks generalizing st prevSig buf with
  | nil => simp [debounceRun, countCommits, quietRunsAux]
  | cons tick rest ih =>
    have ihr := ih ((wstep st (tickSignal tick)).1) (tickSignal tick)
      (tickBuffer buf tick) (fun h => (wstep_next st (tickSignal tick)).mp h)
    cases hcm : (wstep st (tickSignal tick)).2 with
    | true =>
      obtain ⟨hst, hsig⟩ := (wstep_commit st (tickSignal tick)).mp hcm
      have hprev : prevSig = true := hinv hst
      subst hst
      simp only [hsig, wstep, Bool.false_eq_true, if_false, countCommits]
        at ihr
      simp only [debounceRun, List.map_cons, quietRunsAux, hsig, hprev,
        wstep, Bool.false_eq_true, if_false, Bool.not_false, Bool.and_self,
        if_true, countCommits]
      omega
    | false =>
      simp only [debounceRun, List.map_cons, quietRunsAux, countCommits,
        hcm, Bool.false_eq_true, if_false]
      exact le_trans ihr (Nat.le_add_left _ _)

/-- C8: over any discretised timeline, (1) a commit happens only at a
quiet tick — one full 0.5 s quiet period with no new signal — that is never
the first tick and whose predecessor tick was signalled (so every signal
during the quiet-period wait restarts it); (2) for a burst of
buffer-changing writes followed by at least one tick of silence, the config
key converges to exactly the decoded content of the final buffer; and
(3) the number of commits is at most the number of quiet periods in the
timeline. -/
theorem C8_debounce_quiet_period (ticks burst : List Tick) (m : Nat)
    (decode : WriteBytes → Option String) (key : String)
    (settings : String → String) (buf0 : WriteBytes) (v : String)
    (hburst : ∀ t ∈ burst, tickSignal t = true) (hne : burst ≠ [])
    (hdec : decode (burst.foldl tickBuffer buf0) = some v) :
    (∀ i b, (debounceRun WState.idle buf0 ticks).1.get? i = some (some b) →
      (∃ t, ticks.get? i = some t ∧ tickSignal t = false) ∧
      i ≠ 0 ∧
      (∀ j, i = j + 1 →
        ∃ t, ticks.get? j = some t ∧ tickSignal t = true)) ∧
    (applyCommits decode key settings
        (debounceRun WState.idle buf0
          (burst ++ List.replicate (m + 1) none)).1) key = v ∧
    countCommits (debounceRun WState.idle buf0 ticks).1 ≤
      quietRuns (ticks.map tickSignal) := by
  refine ⟨?_, ?_, ?_⟩
  · intro i b hc
    obtain ⟨h1, h2, h3⟩ := debounce_commit_guard ticks WState.idle buf0 i b hc
    refine ⟨h1, ?_, h3⟩
    intro hi
    exact absurd (h2 hi) (by simp)
  · obtain ⟨hb1, hb2, hb3⟩ :=
      debounceRun_all_signal burst WState.idle buf0 hburst
    have hdeb := hb3 hne
    set B := burst.foldl tickBuffer buf0 with hB
    have hsplit := debounceRun_append burst (List.replicate (m + 1) none)
      WState.idle buf0
    have hquiet : debounceRun WState.debouncing B
        (List.replicate (m + 1) none) =
        (some B :: List.replicate m none, WState.idle, B) := by
      have : List.replicate (m + 1) none = (none : Tick) :: List.replicate m none :=
        List.replicate_succ _ _
      rw [this]
      simp [debounceRun, wstep, tickSignal, tickBuffer,
        debounceRun_quiet_idle]
    have hcommits : (debounceRun WState.idle buf0
        (burst ++ List.replicate (m + 1) none)).1 =
        List.replicate burst.length none ++
          (some B :: List.replicate m none) := by
      rw [hsplit]
      simp only [hb1, hdeb, hb2, ← hB, hquiet]
    rw [hcommits]
    simp only [applyCommits, List.foldl_append]
    have h1 : (List.replicate burst.length (none : Option WriteBytes)).foldl
        (fun s c => match c with
          | none => s
          | some buf => workerCommit decode key s buf) settings = settings :=
      applyCommits_replicate_none decode key settings burst.length
    rw [h1]
    simp only [List.foldl_cons]
    have h2 : (List.replicate m (none : Option WriteBytes)).foldl
        (fun s c => match c with
          | none => s
          | some buf => workerCommit decode key s buf)
        (workerCommit decode key settings B) =
        workerCommit decode key settings B :=
      applyCommits_replicate_none decode key
        (workerCommit decode key settings B) m
    rw [h2, workerCommit, hdec]
    simp
  · exact countCommits_le_quietRuns ticks WState.idle true buf0 (by simp)

/-- C8 witness: one `START` write carrying byte 65 ("A"), then one quiet
tick: the key converges to the decoded buffer content. -/
theorem C8_debounce_quiet_period_witness :
    (applyCommits (fun b => if b = [65] then some "A" else none) "wifi_ssid"
      (fun _ => "")
      (debounceRun WState.idle []
        ([some [FLAG_START, 65]] ++ List.replicate (0 + 1) none)).1)
      "wifi_ssid" = "A" :=
  (C8_debounce_quiet_period [] [some [FLAG_START, 65]] 0
    (fun b => if b = [65] then some "A" else none) "wifi_ssid"
    (fun _ => "") [] "A" (by decide) (by decide) (by decide)).2.1

/-! ## ble.py — chunked network-list notifications -/

/-- `_notify_networks_chunked` (`ble.py` 325–370): the frames written to
the networks characteristic, in order (the pacing sleeps and the per-frame
`notify` calls are not represented; the connection is present).
`chunkDataSize` stands for `BLE_NET_CHUNK_DATA_SIZE`, which `ble.py`
imports from `constants.py` but which is not defined anywhere under the
sources; the spec leaves the size abstract, so it is a parameter here.
`(x >> 8) & 0xFF` is written `x / 256 % 256`. -/
def notifyNetworksChunked (chunkDataSize : Nat) (payload : List Nat) :
    List (List Nat) :=
  let totalLen := payload.length
  let tc0 := totalLen / chunkDataSize +
    (if totalLen % chunkDataSize ≠ 0 then 1 else 0)
  let totalChunks := if tc0 = 0 then 1 else tc0
  let startFrame := [BLE_NET_FLAG_START, totalChunks / 256 % 256,
    totalChunks % 256]
  if payload.isEmpty then
    [startFrame, [BLE_NET_FLAG_CHUNK, 0, 0]]
  else
    startFrame :: (List.range totalChunks).map (fun idx =>
      BLE_NET_FLAG_CHUNK :: idx / 256 % 256 :: idx % 256 ::
        ((payload.drop (idx * chunkDataSize)).take chunkDataSize))

/-- One serialized entry of the provisioning network list
(`_send_networks`, `ble.py` 390). -/
structure NetEntry where
  ssid : String
  rssi : Int
deriving DecidableEq, Repr

/-- The capping loop of `_send_networks` (`ble.py` 388–392): append an
entry per scanned network and `break` as soon as the list has reached
`BLE_MAX_NETWORKS_LIST` entries. -/
def buildSimpleList (acc : List NetEntry) : List NetworkInfo → List NetEntry
  | [] => acc
  | n :: rest =>
    let acc2 := acc ++ [⟨n.ssid, n.rssi⟩]
    if BLE_MAX_NETWORKS_LIST ≤ acc2.length then acc2
    else buildSimpleList acc2 rest

/-- The chunk count computed by `_notify_networks_chunked` equals the
spec's `max(1, ceil(L / chunk_data_size))`. -/
theorem totalChunks_eq (n k : Nat) (hk : 0 < k) :
    (if n / k + (if n % k ≠ 0 then 1 else 0) = 0 then 1
     else n / k + (if n % k ≠ 0 then 1 else 0)) =
    max 1 ((n + k - 1) / k) := by
  by_cases hn : n = 0
  · subst hn
    have h0 : (k - 1) / k = 0 := Nat.div_eq_of_lt (by omega)
    simp [h0]
  · by_cases hr : n % k = 0
    · have hdvd : k ∣ n := Nat.dvd_of_mod_eq_zero hr
      have hge : k ≤ n := Nat.le_of_dvd (by omega) hdvd
      have hq : 0 < n / k := Nat.div_pos hge hk
      have heq : n + k - 1 = k * (n / k) + (k - 1) := by
        have hmul := Nat.div_add_mod n k
        omega
      have hd : (n + k - 1) / k = n / k + (k - 1) / k := by
        rw [heq, Nat.mul_add_div hk]
      have hsmall : (k - 1) / k = 0 := Nat.div_eq_of_lt (by omega)
      rw [hd, hsmall]
      simp only [hr, ne_eq, not_true_eq_false, if_false]
      have : ¬ (n / k + 0 = 0) := by omega
      rw [if_neg this]
      omega
    · have hrlt : n % k < k := Nat.mod_lt n hk
      have heq : n + k - 1 = k * (n / k + 1) + (n % k - 1) := by
        have hmul := Nat.div_add_mod n k
        have hexp : k * (n / k + 1) = k * (n / k) + k := by ring
        omega
      have hd : (n + k - 1) / k = n / k + 1 + (n % k - 1) / k := by
        rw [heq, Nat.mul_add_div hk]
      have hsmall : (n % k - 1) / k = 0 := Nat.div_eq_of_lt (by omega)
      rw [hd, hsmall]
      simp only [hr, ne_eq, not_false_iff, if_true]
      have hnz : ¬ (n / k + 1 = 0) := Nat.succ_ne_zero (n / k)
      rw [if_neg hnz, Nat.add_zero]
      exact (max_eq_right (Nat.succ_le_succ (Nat.zero_le _))).symm

/-- Concatenating `n` consecutive `k`-slices of a list of length at most
`n * k` reconstructs the list. -/
theorem join_slices (n : Nat) (k : Nat) (hk : 0 < k) :
    ∀ (l : List Nat), l.length ≤ n * k →
      (List.range n).flatMap (fun i => (l.drop (i * k)).take k) = l := by
  induction n with
  | zero =>
    intro l hlen
    simp only [Nat.zero_mul, Nat.le_zero] at hlen
    simp [List.length_eq_zero.mp hlen]
  | succ n ih =>
    intro l hlen
    rw [List.range_succ_eq_map]
    have hlen2 : (l.drop k).length ≤ n * k := by
      simp only [List.length_drop]
      have hexp : (n + 1) * k = n * k + k := by ring
      omega
    calc (0 :: (List.range n).map Nat.succ).flatMap
          (fun i => (l.drop (i * k)).take k)
        = l.take k ++ ((List.range n).map Nat.succ).flatMap
            (fun i => (l.drop (i * k)).take k) := by
          simp [List.flatMap_cons]
      _ = l.take k ++ (List.range n).flatMap
            (fun i => ((l.drop k).drop (i * k)).take k) := by
          rw [List.flatMap_map]
          have hfun : (fun a : Nat => ((l.drop (a.succ * k)).take k)) =
              (fun i : Nat => (((l.drop k).drop (i * k)).take k)) := by
            funext i
            rw [List.drop_drop, Nat.succ_mul]
            congr 2
            omega
          rw [hfun]
      _ = l.take k ++ l.drop k := by rw [ih (l.drop k) hlen2]
      _ = l := List.take_append_drop k l

/-- The spec's chunk count: `max(1, ceil(L / chunk_data_size))`. -/
def specChunkCount (chunkDataSize L : Nat) : Nat :=
  max 1 ((L + chunkDataSize - 1) / chunkDataSize)

/-- The payload length never exceeds the computed chunk count times the
chunk size. -/
theorem len_le_totalChunks_mul (n k : Nat) (hk : 0 < k) :
    n ≤ (if n / k + (if n % k ≠ 0 then 1 else 0) = 0 then 1
         else n / k + (if n % k ≠ 0 then 1 else 0)) * k := by
  have hmul := Nat.div_add_mod n k
  have hrlt : n % k < k := Nat.mod_lt n hk
  by_cases hr : n % k = 0
  · simp only [hr, ne_eq, not_true_eq_false, if_false, Nat.add_zero]
    by_cases hq : n / k = 0
    · have h0 : k * (n / k) = 0 := by rw [hq]; exact Nat.mul_zero k
      rw [hq, if_pos rfl]
      omega
    · rw [if_neg hq]
      have hcomm : (n / k) * k = k * (n / k) := Nat.mul_comm _ _
      omega
  · have hone : (if n % k ≠ 0 then 1 else 0) = 1 := by simp [hr]
    rw [hone]
    have hnz : ¬ (n / k + 1 = 0) := Nat.succ_ne_zero _
    rw [if_neg hnz]
    have hexp : (n / k + 1) * k = (n / k) * k + k := by ring
    have hcomm : (n / k) * k = k * (n / k) := Nat.mul_comm _ _
    omega

/-- The spec's chunk count stays within 16 bits whenever the payload fits
in 65535 chunks. -/
theorem specChunkCount_lt (k L : Nat) (hk : 0 < k)
    (hbound : L ≤ k * 65535) : specChunkCount k L < 65536 := by
  have hle : L + k - 1 ≤ k * 65535 + (k - 1) := by omega
  have hmono : (L + k - 1) / k ≤ (k * 65535 + (k - 1)) / k :=
    Nat.div_le_div_right hle
  have htop : (k * 65535 + (k - 1)) / k = 65535 + (k - 1) / k :=
    Nat.mul_add_div hk _ _
  have hsmall : (k - 1) / k = 0 := Nat.div_eq_of_lt (by omega)
  rw [htop, hsmall] at hmono
  simp only [specChunkCount]
  omega

/-- The network-list capping loop never returns more than
`BLE_MAX_NETWORKS_LIST` entries. -/
theorem buildSimpleList_le (nets : List NetworkInfo) :
    ∀ acc : List NetEntry, acc.length < BLE_MAX_NETWORKS_LIST →
      (buildSimpleList acc nets).length ≤ BLE_MAX_NETWORKS_LIST := by
  induction nets with
  | nil =>
    intro acc h
    simpa [buildSimpleList] using Nat.le_of_lt h
  | cons n rest ih =>
    intro acc h
    simp only [buildSimpleList]
    by_cases hc :
        BLE_MAX_NETWORKS_LIST ≤ (acc ++ [NetEntry.mk n.ssid n.rssi]).length
    · rw [if_pos hc]
      simp only [List.length_append, List.length_cons, List.length_nil]
      omega
    · rw [if_neg hc]
      apply ih
      simp only [List.length_append, List.length_cons, List.length_nil]
        at hc ⊢
      omega

/-- C9: for every network-list payload, the transmission is exactly one
start frame `[0x01, count_hi, count_lo]` whose 16-bit count equals
`max(1, ceil(L / chunk_data_size))`, followed by exactly that many chunk
frames `[0x02, idx_hi, idx_lo, …payload]` with indices `0 … count−1` whose
payload fields concatenate to the original payload; an empty payload still
yields exactly one chunk frame with empty payload; and the serialized
network list holds at most `BLE_MAX_NETWORKS_LIST = 5` entries. -/
theorem C9_networks_chunking (chunkDataSize : Nat) (payload : List Nat)
    (hpos : 0 < chunkDataSize)
    (hbound : payload.length ≤ chunkDataSize * 65535) :
    (notifyNetworksChunked chunkDataSize payload).head? =
      some [BLE_NET_FLAG_START,
        specChunkCount chunkDataSize payload.length / 256 % 256,
        specChunkCount chunkDataSize payload.length % 256] ∧
    specChunkCount chunkDataSize payload.length / 256 % 256 * 256 +
        specChunkCount chunkDataSize payload.length % 256 =
      specChunkCount chunkDataSize payload.length ∧
    (notifyNetworksChunked chunkDataSize payload).tail.length =
      specChunkCount chunkDataSize payload.length ∧
    (∀ i, i < specChunkCount chunkDataSize payload.length →
      ∃ data, (notifyNetworksChunked chunkDataSize payload).tail.get? i =
        some (BLE_NET_FLAG_CHUNK :: i / 256 % 256 :: i % 256 :: data)) ∧
    (notifyNetworksChunked chunkDataSize payload).tail.flatMap
        (fun f => f.drop 3) = payload ∧
    (payload = [] →
      (notifyNetworksChunked chunkDataSize payload).tail =
        [[BLE_NET_FLAG_CHUNK, 0, 0]]) ∧
    ∀ nets : List NetworkInfo,
      (buildSimpleList [] nets).length ≤ BLE_MAX_NETWORKS_LIST := by
  have htc := totalChunks_eq payload.length chunkDataSize hpos
  have hlen := len_le_totalChunks_mul payload.length chunkDataSize hpos
  have hlt := specChunkCount_lt chunkDataSize payload.length hpos hbound
  have h16 : specChunkCount chunkDataSize payload.length / 256 % 256 * 256 +
      specChunkCount chunkDataSize payload.length % 256 =
      specChunkCount chunkDataSize payload.length := by omega
  have hcap : ∀ nets : List NetworkInfo,
      (buildSimpleList [] nets).length ≤ BLE_MAX_NETWORKS_LIST :=
    fun nets => buildSimpleList_le nets [] (by simp [BLE_MAX_NETWORKS_LIST])
  cases payload with
  | nil =>
    have hspec0 : specChunkCount chunkDataSize ([] : List Nat).length = 1 := by
      simp only [specChunkCount, List.length_nil, Nat.zero_add]
      rw [Nat.div_eq_of_lt (by omega)]
      simp
    refine ⟨?_, h16, ?_, ?_, ?_, ?_, hcap⟩
    · rw [hspec0]
      simp [notifyNetworksChunked]
    · rw [hspec0]
      simp [notifyNetworksChunked]
    · intro i hi
      rw [hspec0] at hi
      have hi0 : i = 0 := by omega
      subst hi0
      refine ⟨[], ?_⟩
      simp [notifyNetworksChunked]
    · simp [notifyNetworksChunked]
    · intro _
      simp [notifyNetworksChunked]
  | cons a as =>
    simp only [specChunkCount] at htc hlt h16 ⊢
    rw [← htc] at h16 ⊢
    simp only [notifyNetworksChunked, List.isEmpty_cons, Bool.false_eq_true,
      if_false, List.head?_cons, List.tail_cons]
    refine ⟨trivial, h16, ?_, ?_, ?_, ?_, hcap⟩
    · simp [List.length_map, List.length_range]
    · intro i hi
      refine ⟨((a :: as).drop (i * chunkDataSize)).take chunkDataSize, ?_⟩
      rw [List.get?_map, List.get?_range hi]
      rfl
    · have hpoint : ∀ i : Nat, List.drop 3
          (BLE_NET_FLAG_CHUNK :: i / 256 % 256 :: i % 256 ::
            (((a :: as).drop (i * chunkDataSize)).take chunkDataSize)) =
          ((a :: as).drop (i * chunkDataSize)).take chunkDataSize :=
        fun i => rfl
      rw [List.flatMap_map]
      simp only [hpoint]
      exact join_slices _ chunkDataSize hpos (a :: as) hlen
    · intro h
      simp at h

/-- C9 witness: a 5-byte payload with chunk size 4 splits into two chunk
frames whose payload fields reassemble to the payload. -/
theorem C9_networks_chunking_witness :
    (notifyNetworksChunked 4 [1, 2, 3, 4, 5]).tail.flatMap
      (fun f => f.drop 3) = [1, 2, 3, 4, 5] :=
  (C9_networks_chunking 4 [1, 2, 3, 4, 5] (by decide)
    (by decide)).2.2.2.2.1

/-- Emitting a list of events one by one onto a queue that stays within
capacity simply appends them in order (no drops). -/
theorem emit_foldl_eq_append {α : Type} (handlers : List (String × HandlerId))
    (ds : List (String × α)) (q0 : List (String × α))
    (h : q0.length + ds.length ≤ MAX_EVENT_QUEUE_SIZE) :
    (ds.foldl (fun m p => m.emit p.1 p.2)
        (⟨handlers, q0⟩ : EventManager α)).queue = q0 ++ ds := by
  induction ds generalizing q0 with
  | nil => simp
  | cons p ds ih =>
    have hlt : q0.length < MAX_EVENT_QUEUE_SIZE := by
      simp only [List.length_cons] at h; omega
    have hstep : (EventManager.emit (⟨handlers, q0⟩ : EventManager α) p.1 p.2) =
        (⟨handlers, q0 ++ [(p.1, p.2)]⟩ : EventManager α) := by
      simp [EventManager.emit, dequeAppend, hlt]
    have h2 : (q0 ++ [(p.1, p.2)]).length + ds.length ≤ MAX_EVENT_QUEUE_SIZE := by
      simp only [List.length_append, List.length_cons, List.length_nil] at h ⊢
      omega
    calc (List.foldl (fun m p => EventManager.emit m p.1 p.2)
          (⟨handlers, q0⟩ : EventManager α) (p :: ds)).queue
        = (List.foldl (fun m p => EventManager.emit m p.1 p.2)
          (⟨handlers, q0 ++ [(p.1, p.2)]⟩ : EventManager α) ds).queue := by
          simp [List.foldl_cons, hstep]
      _ = (q0 ++ [(p.1, p.2)]) ++ ds := ih _ h2
      _ = q0 ++ p :: ds := by simp

/-- With no handler cancelling, every handler of the list is invoked in
order and the loop never aborts. -/
theorem runHandlersOn_no_cancel {α : Type} (run : HandlerId → α → HRes) (d : α)
    (hs : List HandlerId) (hnc : ∀ h, run h d ≠ HRes.cancelled) :
    runHandlersOn run d hs = (hs.map (fun h => (h, run h d)), false) := by
  induction hs with
  | nil => rfl
  | cons h rest ih =>
    have hh := hnc h
    cases hr : run h d with
    | cancelled => exact absurd hr hh
    | ok => simp [runHandlersOn, hr, ih]
    | err => simp [runHandlersOn, hr, ih]

/-- C4 (counterexample): with the queue full (50 events `("t",0) … ("t",49)`),
emitting `("t",50)` changes the stored queue — the events already queued are
not "preserved unchanged" (the oldest is evicted), refuting the claim that
the newest enqueue is the one dropped. -/
theorem C4_counterexample :
    (EventManager.emit
        (⟨[], (List.range 50).map (fun i => ("t", i))⟩ : EventManager Nat)
        "t" 50).queue ≠ (List.range 50).map (fun i => ("t", i)) := by
  decide

/-- C4 (amended): the event queue is bounded at `MAX_EVENT_QUEUE_SIZE = 50`;
`emit` is a plain synchronous append that never blocks; when the queue is
full the OLDEST queued event is dropped and the new event is appended at the
back, the other queued events being preserved in order; below capacity the
event is appended with nothing dropped. -/
theorem C4_queue_bounded_drop_oldest {α : Type} (m : EventManager α)
    (t : String) (d : α) (hle : m.queue.length ≤ MAX_EVENT_QUEUE_SIZE) :
    (m.emit t d).queue.length ≤ MAX_EVENT_QUEUE_SIZE ∧
    (m.queue.length = MAX_EVENT_QUEUE_SIZE →
      (m.emit t d).queue = m.queue.tail ++ [(t, d)]) ∧
    (m.queue.length < MAX_EVENT_QUEUE_SIZE →
      (m.emit t d).queue = m.queue ++ [(t, d)]) := by
  by_cases hlt : m.queue.length < MAX_EVENT_QUEUE_SIZE
  · refine ⟨?_, ?_, ?_⟩
    · simp only [EventManager.emit, dequeAppend, hlt, if_pos]
      simp only [List.length_append, List.length_cons, List.length_nil]
      omega
    · intro heq; omega
    · intro _; simp [EventManager.emit, dequeAppend, hlt]
  · have heq : m.queue.length = MAX_EVENT_QUEUE_SIZE := by omega
    refine ⟨?_, ?_, ?_⟩
    · simp only [EventManager.emit, dequeAppend]
      rw [if_neg hlt]
      simp only [List.length_append, List.length_cons, List.length_nil]
      have htail : m.queue.tail.length = m.queue.length - 1 :=
        List.length_tail m.queue
      have hmax : MAX_EVENT_QUEUE_SIZE = 50 := rfl
      omega
    · intro _; simp [EventManager.emit, dequeAppend, hlt]
    · intro h; omega

/-- C4 witness: the amended theorem applied at a concrete manager. -/
theorem C4_queue_bounded_drop_oldest_witness :
    (EventManager.emit (⟨[], [("t", 7)]⟩ : EventManager Nat) "t" 8).queue.length
      ≤ MAX_EVENT_QUEUE_SIZE :=
  (C4_queue_bounded_drop_oldest (⟨[], [("t", 7)]⟩ : EventManager Nat) "t" 8
    (by decide)).1

/-- C5: provided no handler cancels, (i) the drain never aborts,
(ii) the full invocation trace is exactly the queue's events in FIFO order,
each event invoking every handler registered for its topic in registration
order — so a single subscriber sees payloads in emit order, and a handler
returning an error neither suppresses the remaining handlers of that event
nor stops the loop — and (iii) any sequence of at most 50 events emitted on
an empty queue is queued in emit order with none dropped. -/
theorem C5_fifo_delivery {α : Type} (run : HandlerId → α → HRes)
    (handlers : List (String × HandlerId)) (q : List (String × α))
    (hnc : ∀ h d, run h d ≠ HRes.cancelled) :
    (processQueue run handlers q).2 = false ∧
    (processQueue run handlers q).1 =
      q.flatMap (fun p =>
        (handlersFor (α := α) ⟨handlers, []⟩ p.1).map
          (fun h => (p.1, h, run h p.2))) ∧
    ∀ (ds : List (String × α)), ds.length ≤ MAX_EVENT_QUEUE_SIZE →
      (ds.foldl (fun m p => m.emit p.1 p.2)
          (⟨handlers, []⟩ : EventManager α)).queue = ds := by
  refine ⟨?_, ?_, ?_⟩
  · induction q with
    | nil => rfl
    | cons p rest ih =>
      obtain ⟨t, d⟩ := p
      simp [processQueue, runHandlersOn_no_cancel run d _ (fun h => hnc h d),
        ih]
  · induction q with
    | nil => rfl
    | cons p rest ih =>
      obtain ⟨t, d⟩ := p
      simp [processQueue, runHandlersOn_no_cancel run d _ (fun h => hnc h d),
        ih, Function.comp]
  · intro ds hds
    simpa using emit_foldl_eq_append handlers ds [] (by simpa using hds)

/-- C5 witness: two events, one subscriber with a handler that errs on the
first payload; the drain still completes and delivers both events. -/
theorem C5_fifo_delivery_witness :
    (processQueue (fun _ d => if d = 1 then HRes.err else HRes.ok)
      [("t", 0)] [("t", 1), ("t", 2)]).2 = false :=
  (C5_fifo_delivery (fun _ d => if d = 1 then HRes.err else HRes.ok)
    [("t", 0)] [("t", 1), ("t", 2)]
    (by intro h d; by_cases hd : d = 1 <;> simp [hd])).1

end StripAlerts
